import Mathlib

/-!
Verification development for the flow-cytometry staining-matrix designer
(`Flowjo_designer.py`).  The Python source is shallowly embedded: the
session-state dictionaries (`st.session_state.antibodies`, `st.session_state.tubes`)
become insertion-ordered association lists, Python floats become exact rationals,
and fallible Python code (division by zero, `KeyError`) becomes `Except`.
-/

namespace FlowDesigner

/-- The `AntibodyType` enum of the source (`class AntibodyType(Enum)`).
The five variants carry the Chinese display labels as their `.value`. -/
inductive AntibodyType where
  | SURFACE
  | INTRACELLULAR
  | VIABILITY
  | FC_BLOCK
  | OTHER
deriving DecidableEq, Repr, Inhabited

/-- `AntibodyType.value`: the string value each enum member is declared with. -/
def AntibodyType.value : AntibodyType → String
  | .SURFACE => "表面抗体"
  | .INTRACELLULAR => "胞内抗体"
  | .VIABILITY => "死活染料"
  | .FC_BLOCK => "Fc阻断剂"
  | .OTHER => "其他"

/-- Python `str()` applied to an `AntibodyType` member (a plain `Enum`, so
`str(AntibodyType.SURFACE)` is `"AntibodyType.SURFACE"`, not the value). -/
def AntibodyType.pyStr : AntibodyType → String
  | .SURFACE => "AntibodyType.SURFACE"
  | .INTRACELLULAR => "AntibodyType.INTRACELLULAR"
  | .VIABILITY => "AntibodyType.VIABILITY"
  | .FC_BLOCK => "AntibodyType.FC_BLOCK"
  | .OTHER => "AntibodyType.OTHER"

/-- The `Antibody` dataclass.  Floats (`concentration`, `recommended_use`)
are embedded as exact rationals. -/
structure Antibody where
  name : String
  short_name : String := ""
  fluorochrome : String := ""
  target : String := ""
  clone : String := ""
  concentration : ℚ := 0
  recommended_use : ℚ := 0
  type : AntibodyType := .SURFACE
  catalog_number : String := ""
  lot_number : String := ""
  storage : String := "4°C避光"
  notes : String := ""
  color : String := "#3B82F6"
deriving DecidableEq, Repr, Inhabited

/-- The `TubeConfiguration` dataclass.  `antibodies` is the list of reagent
names referenced by the tube (weak, name-based references). -/
structure TubeConfiguration where
  name : String
  description : String := ""
  antibodies : List String := []
  needs_fixation : Bool := false
  is_control : Bool := false
  control_type : String := ""
  color : String := "#10B981"
deriving DecidableEq, Repr, Inhabited

/-- Accumulator pass behind `pySplitWs`: walk the characters, flushing the
current (reversed) token at each whitespace run. -/
def wsSplitCh : List Char → List Char → List (List Char)
  | [], cur => if cur.isEmpty then [] else [cur.reverse]
  | c :: cs, cur =>
    if c.isWhitespace then
      if cur.isEmpty then wsSplitCh cs [] else cur.reverse :: wsSplitCh cs []
    else wsSplitCh cs (c :: cur)

/-- Python `str.split()` with no argument: split on whitespace runs,
discarding empty tokens. -/
def pySplitWs (s : String) : List String :=
  (wsSplitCh s.data []).map String.mk

/-- Accumulator pass behind `pySplitOn`: scan left to right for the
(non-empty) separator pattern, cutting at each non-overlapping occurrence.
`fuel` only bounds the recursion; every call site supplies enough of it for
the branch at zero to be unreachable. -/
def subSplitCh (pat : List Char) : ℕ → List Char → List Char → List (List Char)
  | 0, rest, cur => [cur.reverse ++ rest]
  | _ + 1, [], cur => [cur.reverse]
  | fuel + 1, c :: cs, cur =>
    if pat.isPrefixOf (c :: cs) then
      cur.reverse :: subSplitCh pat fuel ((c :: cs).drop pat.length) []
    else subSplitCh pat fuel cs (c :: cur)

/-- Python `s.split(sep)` for a non-empty separator: the pieces between
non-overlapping left-to-right occurrences of `sep`, empties kept. -/
def pySplitOn (s sep : String) : List String :=
  (subSplitCh sep.data (s.data.length + 1) s.data []).map String.mk

/-- Python `s[:n]` (character slice). -/
def pyTake (s : String) (n : ℕ) : String :=
  String.mk (s.data.take n)

/-- Python `s.strip()`: remove leading and trailing whitespace. -/
def pyStrip (s : String) : String :=
  String.mk (((s.data.dropWhile Char.isWhitespace).reverse.dropWhile
    Char.isWhitespace).reverse)

/-- Python `word[0]` for the non-empty tokens produced by `pySplitWs`. -/
def pyFront (s : String) : Char :=
  s.data.headD ' '

/-- Python `sep.join(parts)`. -/
def joinSep (sep : String) : List String → String
  | [] => ""
  | [x] => x
  | x :: xs => x ++ sep ++ joinSep sep xs

/-- `Antibody.__post_init__`: when `short_name` is empty it is derived from
`name`.  The three source branches, in order:
if `"Anti-" in name`, the first whitespace token after the last `"Anti-"`
(`name.split("Anti-")[-1].split()[0]`; `none` models the `IndexError` when
nothing follows); else if `" " in name`, the concatenation of the first
characters of the whitespace-delimited words whose first character is
uppercase; else the first ten characters of `name`. -/
def postInitShortName (name short_name : String) : Option String :=
  if short_name ≠ "" then some short_name
  else if 2 ≤ (pySplitOn name "Anti-").length then
    match pySplitWs ((pySplitOn name "Anti-").getLastD "") with
    | [] => none
    | w :: _ => some w
  else if name.data.contains ' ' then
    some (String.mk (((pySplitWs name).filter
      (fun w => (pyFront w).isUpper)).map pyFront))
  else some (pyTake name 10)

/-- Spec-side helper (claim wording): the last whitespace-delimited token of a
string. -/
def lastWsToken (s : String) : String :=
  (pySplitWs s).getLastD ""

/-! ## Staining matrix (`render_matrix`, lines 577–590) -/

/-- One row of the staining matrix: tube name, description, one presence cell
(`"✓"` or `""`) per catalog antibody in catalog insertion order, the fixation
flag cell, and the control-type cell. -/
structure MatrixRow where
  tubeName : String
  description : String
  presence : List (String × String)
  fixation : String
  controlLabel : String
deriving DecidableEq, Repr

/-- `render_matrix`'s matrix construction: one row per tube in tube insertion
order; for each catalog antibody name the cell is `"✓"` iff that name is a
member of the tube's `antibodies` list. -/
def buildMatrix (antibodies : List (String × Antibody))
    (tubes : List (String × TubeConfiguration)) : List MatrixRow :=
  tubes.map (fun p =>
    { tubeName := p.1
      description := p.2.description
      presence := antibodies.map (fun q =>
        (q.1, if q.1 ∈ p.2.antibodies then "✓" else ""))
      fixation := if p.2.needs_fixation then "是" else "否"
      controlLabel := if p.2.is_control then p.2.control_type else "实验管" })

/-! ## Master-mix calculator (`render_mastermix_calculator`, lines 759–850) -/

/-- One iteration of the tube-partition loop (lines 762–766):
`if tube.needs_fixation:` append the name to the intracellular list; `elif
tube.antibodies:` append it to the surface list; else neither. -/
def mixStep (acc : List String × List String)
    (p : String × TubeConfiguration) : List String × List String :=
  if p.2.needs_fixation then (acc.1, acc.2 ++ [p.1])
  else if ¬ p.2.antibodies.isEmpty then (acc.1 ++ [p.1], acc.2)
  else acc

/-- The tube-partition loop over the tube dictionary in insertion order.
Returns `(surface_tubes, intracellular_tubes)`. -/
def mixPartition (tubes : List (String × TubeConfiguration)) :
    List String × List String :=
  tubes.foldl mixStep ([], [])

/-- The antibody types priced into the surface mix
(`ab.type in [SURFACE, VIABILITY, FC_BLOCK]`). -/
def surfaceKeep (t : AntibodyType) : Bool :=
  t ∈ [AntibodyType.SURFACE, AntibodyType.VIABILITY, AntibodyType.FC_BLOCK]

/-- The antibody type priced into the intracellular mix
(`ab.type == AntibodyType.INTRACELLULAR`). -/
def intracelKeep (t : AntibodyType) : Bool :=
  t = AntibodyType.INTRACELLULAR

/-- `total_surface_tubes = len(surface_tubes) + extra_tubes` (line 774). -/
def totalSurfaceTubes (tubes : List (String × TubeConfiguration))
    (extra_tubes : ℕ) : ℕ :=
  (mixPartition tubes).1.length + extra_tubes

/-- `total_surface_volume = per_tube * total_surface_tubes` (line 775). -/
def totalSurfaceVolume (tubes : List (String × TubeConfiguration))
    (per_tube : ℚ) (extra_tubes : ℕ) : ℚ :=
  per_tube * (totalSurfaceTubes tubes extra_tubes : ℚ)

/-- `total_intracel_tubes = len(intracellular_tubes) + extra_tubes` (line 827). -/
def totalIntracelTubes (tubes : List (String × TubeConfiguration))
    (extra_tubes : ℕ) : ℕ :=
  (mixPartition tubes).2.length + extra_tubes

/-- One entry appended to `surface_results` / `intracel_results`: the reagent
short name (the `抗体` column, the deduplication key), plus the numeric values
behind the formatted columns (`浓度`, `每管用量`, `总需用量`) and the notes.
The source renders `perTubeVol`/`totalVol` with two decimals for display;
the embedding keeps the computed rationals. -/
structure DoseRow where
  antibody : String
  conc : ℚ
  perTubeVol : ℚ
  totalVol : ℚ
  notes : String
deriving DecidableEq, Repr

/-- Python float division: raises `ZeroDivisionError` when the denominator is
zero (there is no try/except around the dose computation in the source). -/
def pyDiv (a b : ℚ) : Except Unit ℚ :=
  if b = 0 then .error () else .ok (a / b)

/-- The inner loop over one tube's antibody references (lines 781–794 /
834–847): skip names missing from the catalog, keep only reagents whose type
passes `keep`, compute `per_tube_vol = (recommended_use * cell_count) /
concentration` (propagating `ZeroDivisionError`) and
`total_vol = per_tube_vol * totalTubes`, and append one row per kept pair. -/
def doseRows (antibodies : List (String × Antibody)) (keep : AntibodyType → Bool)
    (abNames : List String) (cell_count totalTubes : ℚ) :
    Except Unit (List DoseRow) :=
  match abNames with
  | [] => .ok []
  | n :: rest =>
    match antibodies.lookup n with
    | none => doseRows antibodies keep rest cell_count totalTubes
    | some ab =>
      if keep ab.type then
        match pyDiv (ab.recommended_use * cell_count) ab.concentration with
        | .error e => .error e
        | .ok v =>
          match doseRows antibodies keep rest cell_count totalTubes with
          | .error e => .error e
          | .ok rows =>
            .ok ({ antibody := ab.short_name, conc := ab.concentration,
                   perTubeVol := v, totalVol := v * totalTubes,
                   notes := ab.notes } :: rows)
      else doseRows antibodies keep rest cell_count totalTubes

/-- The outer loop over a mix group's tube names (lines 779–794 / 832–847):
each name is looked up in the tube dictionary (it is always present, being a
key of it) and its reference list is priced with `doseRows`. -/
def groupResults (antibodies : List (String × Antibody))
    (tubes : List (String × TubeConfiguration)) (keep : AntibodyType → Bool)
    (tubeNames : List String) (cell_count totalTubes : ℚ) :
    Except Unit (List DoseRow) :=
  match tubeNames with
  | [] => .ok []
  | tn :: rest =>
    match tubes.lookup tn with
    | none => groupResults antibodies tubes keep rest cell_count totalTubes
    | some tube =>
      match doseRows antibodies keep tube.antibodies cell_count totalTubes with
      | .error e => .error e
      | .ok rows =>
        match groupResults antibodies tubes keep rest cell_count totalTubes with
        | .error e => .error e
        | .ok rows2 => .ok (rows ++ rows2)

/-- `surface_results` (lines 774–794): rows for all (tube, reagent) pairs of
the surface group, or the propagated `ZeroDivisionError`. -/
def surfaceResults (antibodies : List (String × Antibody))
    (tubes : List (String × TubeConfiguration)) (cell_count : ℚ)
    (extra_tubes : ℕ) : Except Unit (List DoseRow) :=
  groupResults antibodies tubes surfaceKeep (mixPartition tubes).1 cell_count
    (totalSurfaceTubes tubes extra_tubes : ℚ)

/-- `intracel_results` (lines 827–847): rows for all (tube, reagent) pairs of
the intracellular group. -/
def intracelResults (antibodies : List (String × Antibody))
    (tubes : List (String × TubeConfiguration)) (cell_count : ℚ)
    (extra_tubes : ℕ) : Except Unit (List DoseRow) :=
  groupResults antibodies tubes intracelKeep (mixPartition tubes).2 cell_count
    (totalIntracelTubes tubes extra_tubes : ℚ)

/-- `pd.DataFrame(rows).drop_duplicates(subset=["抗体"])` (lines 797 / 850):
keep, for each value of the `抗体` (short-name) column, only the first row
carrying it, preserving order. -/
def dedupByAntibody : List DoseRow → List DoseRow
  | [] => []
  | r :: rest =>
    r :: dedupByAntibody (rest.filter (fun r0 => r0.antibody ≠ r.antibody))
termination_by l => l.length
decreasing_by
  simp only [List.length_cons]
  exact Nat.lt_succ_of_le (List.length_filter_le _ _)

/-- The displayed surface dose table: `surface_results` deduplicated on the
`抗体` column. -/
def surfaceTable (antibodies : List (String × Antibody))
    (tubes : List (String × TubeConfiguration)) (cell_count : ℚ)
    (extra_tubes : ℕ) : Except Unit (List DoseRow) :=
  (surfaceResults antibodies tubes cell_count extra_tubes).map dedupByAntibody

/-! ## Experiment planner (`render_experiment_planner`, lines 1004–1029) -/

/-- One row of `plan_data`: sample ID, group, replicate index, tube name,
description, the joined antibody column, fixation flag cell, control-type
cell, and the acquisition-order integer (`上机顺序`). -/
structure PlanRow where
  sampleId : String
  group : String
  rep : ℕ
  tubeName : String
  description : String
  antibodiesCol : String
  fixation : String
  controlLabel : String
  acqOrder : ℕ
deriving DecidableEq, Repr

/-- The dictionary appended per loop iteration (lines 1010–1020):
`样品ID = f"{group[:3]}_R{rep}_{tube_name[:10]}"`, the antibody column joins
each reference's text before the first `(`, stripped. -/
def mkPlanRow (group : String) (rep : ℕ) (tn : String)
    (t : TubeConfiguration) (sid : ℕ) : PlanRow :=
  { sampleId := pyTake group 3 ++ "_R" ++ toString rep ++ "_" ++ pyTake tn 10
    group := group
    rep := rep
    tubeName := tn
    description := t.description
    antibodiesCol := joinSep ", "
      (t.antibodies.map (fun ab =>
        pyStrip (String.mk (ab.data.takeWhile (fun c => c ≠ '(')))))
    fixation := if t.needs_fixation then "是" else "否"
    controlLabel := if t.is_control then t.control_type else "实验管"
    acqOrder := sid }

/-- Innermost loop: one triple per tube of the tube dictionary, in order. -/
def tubeTriples (g : String) (r : ℕ)
    (tubes : List (String × TubeConfiguration)) :
    List (String × ℕ × String × TubeConfiguration) :=
  tubes.map (fun p => (g, r, p.1, p.2))

/-- Middle loop: `for rep in range(1, replicates + 1)`. -/
def repTriples (g : String) (tubes : List (String × TubeConfiguration)) :
    List ℕ → List (String × ℕ × String × TubeConfiguration)
  | [] => []
  | r :: rs => tubeTriples g r tubes ++ repTriples g tubes rs

/-- Outer loop: `for group in groups`. -/
def groupTriples (tubes : List (String × TubeConfiguration)) (replicates : ℕ) :
    List String → List (String × ℕ × String × TubeConfiguration)
  | [] => []
  | g :: gs =>
    repTriples g tubes (List.range' 1 replicates) ++
      groupTriples tubes replicates gs

/-- The `(group, replicate, tube)` triples visited by the nested loops,
in nested iteration order. -/
def planTriples (tubes : List (String × TubeConfiguration))
    (groups : List String) (replicates : ℕ) :
    List (String × ℕ × String × TubeConfiguration) :=
  groupTriples tubes replicates groups

/-- The running `sample_id` counter: the i-th appended row (0-based) gets
`上机顺序 = sid + i`, with `sid = 1` initially. -/
def planRowsAux (sid : ℕ) :
    List (String × ℕ × String × TubeConfiguration) → List PlanRow
  | [] => []
  | q :: rest => mkPlanRow q.1 q.2.1 q.2.2.1 q.2.2.2 sid :: planRowsAux (sid + 1) rest

/-- `plan_data` generation with `randomize = False` (lines 1004–1021):
nested loops over groups, replicates 1..replicates and tubes, appending one
row per iteration with a sequential `上机顺序` starting at 1. -/
def generatePlan (tubes : List (String × TubeConfiguration))
    (groups : List String) (replicates : ℕ) : List PlanRow :=
  planRowsAux 1 (planTriples tubes groups replicates)

/-- The global numpy PRNG state.  The source manipulates it only through
`np.random.seed(42)` immediately before the shuffle, so only the seed value
matters; the state is abstracted to that value. -/
structure RandState where
  val : ℕ
deriving DecidableEq, Repr

/-- `np.random.seed(s)`: overwrite the global PRNG state with the seed. -/
def npSeed (s : ℕ) (_ : RandState) : RandState := ⟨s⟩

/-- A 64-bit linear congruential step, the pseudo-random word stream driving
the embedded shuffle. -/
def lcgNext (s : ℕ) : ℕ :=
  (6364136223846793005 * s + 1442695040888963407) % 2 ^ 64

/-- Seeded Fisher–Yates draw: with `fuel` initially the list length, pick the
element at index `state % length`, remove it, and continue with the next
pseudo-random word. -/
def shuffleGo {α : Type} : ℕ → ℕ → List α → List α
  | 0, _, _ => []
  | _ + 1, _, [] => []
  | n + 1, s, l =>
    match l[s % l.length]? with
    | none => []
    | some a => a :: shuffleGo n (lcgNext s) (l.eraseIdx (s % l.length))

/-- Model of `plan_df.sample(frac=1)` after `np.random.seed(seed)`:
`DataFrame.sample(frac=1)` permutes the rows using the freshly seeded global
numpy PRNG, so the resulting permutation is a function of the seed and the
row count only.  Embedded as a concrete seeded Fisher–Yates shuffle. -/
def seededShuffle {α : Type} (seed : ℕ) (l : List α) : List α :=
  shuffleGo l.length seed l

/-- `plan_df["上机顺序"] = range(1, len(plan_df) + 1)` (line 1029): overwrite
the acquisition-order column with 1..N in the current row order. -/
def renumber (rows : List PlanRow) : List PlanRow :=
  (List.enumFrom 1 rows).map (fun p => { p.2 with acqOrder := p.1 })

/-- The `randomize = True` path (lines 1026–1029): starting from the ambient
PRNG state, seed it with 42, shuffle the deterministic plan rows, and
renumber the acquisition order 1..N. -/
def generatePlanRandom (st : RandState)
    (tubes : List (String × TubeConfiguration)) (groups : List String)
    (replicates : ℕ) : List PlanRow :=
  renumber (seededShuffle (npSeed 42 st).val (generatePlan tubes groups replicates))

/-! ## Project save / load (`render_sidebar`, lines 1326–1369) -/

/-- The JSON form of one antibody entry as written by `保存项目`
(`asdict` + `json.dumps(..., default=str)`): every dataclass field keyed by
name; the `type` field — an enum, not JSON-serializable — goes through
`default=str`, i.e. Python `str()` of the member. -/
structure AntibodyRecord where
  name : String
  short_name : String
  fluorochrome : String
  target : String
  clone : String
  concentration : ℚ
  recommended_use : ℚ
  type : String
  catalog_number : String
  lot_number : String
  storage : String
  notes : String
  color : String
deriving DecidableEq, Repr

/-- Serialization of one antibody (line 1329 together with line 1334's
`default=str`). -/
def saveAntibody (ab : Antibody) : AntibodyRecord :=
  { name := ab.name
    short_name := ab.short_name
    fluorochrome := ab.fluorochrome
    target := ab.target
    clone := ab.clone
    concentration := ab.concentration
    recommended_use := ab.recommended_use
    type := ab.type.pyStr
    catalog_number := ab.catalog_number
    lot_number := ab.lot_number
    storage := ab.storage
    notes := ab.notes
    color := ab.color }

/-- `type_map = {t.value: t for t in AntibodyType}` (line 1353): the loader's
label-to-variant table, keyed by the enum *values*. -/
def typeMap : List (String × AntibodyType) :=
  [("表面抗体", .SURFACE), ("胞内抗体", .INTRACELLULAR), ("死活染料", .VIABILITY),
   ("Fc阻断剂", .FC_BLOCK), ("其他", .OTHER)]

/-- Deserialization of one antibody entry (lines 1353–1355):
`type_map[ab_dict['type']]` raises `KeyError` (embedded as `.error` carrying
the unrecognized label) when the stored label is not an enum value. -/
def loadAntibody (r : AntibodyRecord) : Except String Antibody :=
  match typeMap.lookup r.type with
  | none => .error r.type
  | some t =>
    .ok { name := r.name
          short_name := r.short_name
          fluorochrome := r.fluorochrome
          target := r.target
          clone := r.clone
          concentration := r.concentration
          recommended_use := r.recommended_use
          type := t
          catalog_number := r.catalog_number
          lot_number := r.lot_number
          storage := r.storage
          notes := r.notes
          color := r.color }

/-- Serialization of the whole catalog (line 1329): one record per entry,
insertion order preserved. -/
def saveProjectAntibodies (abs : List (String × Antibody)) :
    List (String × AntibodyRecord) :=
  abs.map (fun p => (p.1, saveAntibody p.2))

/-- Python dict insertion `d[name] = v`: overwrite in place when the key is
present, else append. -/
def dictInsert {α : Type} (m : List (String × α)) (k : String) (v : α) :
    List (String × α) :=
  if m.any (fun p => p.1 == k) then
    m.map (fun p => if p.1 == k then (k, v) else p)
  else m ++ [(k, v)]

/-- The load loop over the uploaded project's antibody entries
(lines 1351–1355), started on the *already cleared* dictionary: each entry is
parsed and inserted; a `KeyError` aborts the loop, leaving the entries
inserted so far.  Returns the resulting dictionary and the error, if any. -/
def loadAntibodiesInto (entries : List (String × AntibodyRecord))
    (acc : List (String × Antibody)) :
    List (String × Antibody) × Option String :=
  match entries with
  | [] => (acc, none)
  | (n, r) :: rest =>
    match loadAntibody r with
    | .error e => (acc, some e)
    | .ok ab => loadAntibodiesInto rest (dictInsert acc n ab)

/-- The antibody phase of project load (lines 1350–1355) as a transition on
the session catalog: `st.session_state.antibodies.clear()` discards the
pre-load catalog, then the entries are parsed and inserted one by one; an
exception escapes to the `except` handler with the partial catalog in place. -/
def loadProjectAntibodiesState (pre : List (String × Antibody))
    (entries : List (String × AntibodyRecord)) :
    List (String × Antibody) × Option String :=
  match pre with
  | _ => loadAntibodiesInto entries []

/-- The antibody phase of a *successful* load, as the value-level round-trip
partner of `saveProjectAntibodies`: all entries must parse. -/
def loadProjectAntibodies (entries : List (String × AntibodyRecord)) :
    Except String (List (String × Antibody)) :=
  match entries with
  | [] => .ok []
  | (n, r) :: rest =>
    match loadAntibody r with
    | .error e => .error e
    | .ok ab =>
      match loadProjectAntibodies rest with
      | .error e => .error e
      | .ok m => .ok ((n, ab) :: m)

/-! ## Concrete example inputs used by the witnesses and counterexamples -/

/-- A surface antibody with the spec's example numbers
(`concentration=200`, `recommendedUse=0.25`). -/
def exCD45 : Antibody :=
  { name := "CD45", short_name := "CD45", concentration := 200,
    recommended_use := 0.25, type := .SURFACE }

/-- A one-antibody catalog. -/
def exCatalog : List (String × Antibody) := [("CD45", exCD45)]

/-- A surface-stain tube: no fixation, one reagent reference. -/
def exSurfTube : TubeConfiguration := { name := "T1", antibodies := ["CD45"] }

/-- A fixation tube. -/
def exFixTube : TubeConfiguration :=
  { name := "T2", antibodies := ["CD45"], needs_fixation := true }

/-- A blank tube: no references, no fixation. -/
def exBlankTube : TubeConfiguration := { name := "T3" }

/-- A three-tube set covering all partition cases. -/
def exTubes : List (String × TubeConfiguration) :=
  [("T1", exSurfTube), ("T2", exFixTube), ("T3", exBlankTube)]

/-- The surface dose row computed from `exCatalog` at `cellCount = 1`,
`extraTubes = 2` (`totalTubes = 3`). -/
def exC1rows : List DoseRow :=
  [{ antibody := "CD45", conc := 200, perTubeVol := 1/800, totalVol := 3/800,
     notes := "" }]

/-- Two *distinct* reagents that share the short name `"X"`. -/
def exAlpha : Antibody :=
  { name := "Reagent A", short_name := "X", concentration := 100,
    recommended_use := 1, type := .SURFACE }

/-- See `exAlpha`. -/
def exBeta : Antibody :=
  { name := "Reagent B", short_name := "X", concentration := 200,
    recommended_use := 1, type := .SURFACE }

/-- Catalog with two distinct reagent names mapping to short name `"X"`. -/
def exC4abs : List (String × Antibody) :=
  [("Reagent A", exAlpha), ("Reagent B", exBeta)]

/-- One surface tube referencing both reagents of `exC4abs`. -/
def exC4tube : TubeConfiguration :=
  { name := "T1", antibodies := ["Reagent A", "Reagent B"] }

/-- Tube set for the deduplication counterexample. -/
def exC4tubes : List (String × TubeConfiguration) := [("T1", exC4tube)]

/-- The two rows emitted for `exC4abs`/`exC4tubes` at `cellCount = 1`,
`extraTubes = 0` (`totalTubes = 1`), before deduplication. -/
def exC4rows : List DoseRow :=
  [{ antibody := "X", conc := 100, perTubeVol := 1/100, totalVol := 1/100,
     notes := "" },
   { antibody := "X", conc := 200, perTubeVol := 1/200, totalVol := 1/200,
     notes := "" }]

/-- A reagent with the zero "unset" concentration. -/
def exZeroAb : Antibody :=
  { name := "ZeroAb", short_name := "Z0", concentration := 0,
    recommended_use := 1/2, type := .SURFACE }

/-- Catalog holding a well-formed reagent and a zero-concentration one. -/
def exC5abs : List (String × Antibody) :=
  [("CD45", exCD45), ("ZeroAb", exZeroAb)]

/-- A surface tube referencing both reagents of `exC5abs`. -/
def exC5tube : TubeConfiguration :=
  { name := "T1", antibodies := ["CD45", "ZeroAb"] }

/-- Tube set for the division-by-zero failing input. -/
def exC5tubes : List (String × TubeConfiguration) := [("T1", exC5tube)]

/-- A pre-load session catalog (claim C10). -/
def exC10pre : List (String × Antibody) := [("OldAb", { name := "OldAb" })]

/-- A project-file antibody entry with a valid type label. -/
def exC10good : AntibodyRecord :=
  { name := "CD45", short_name := "CD45", fluorochrome := "", target := "",
    clone := "", concentration := 200, recommended_use := 1,
    type := "表面抗体", catalog_number := "", lot_number := "", storage := "",
    notes := "", color := "" }

/-- A project-file antibody entry with an unrecognized type label. -/
def exC10bad : AntibodyRecord :=
  { name := "Mystery", short_name := "", fluorochrome := "", target := "",
    clone := "", concentration := 1, recommended_use := 1,
    type := "外星抗体", catalog_number := "", lot_number := "", storage := "",
    notes := "", color := "" }

/-- Project antibody entries: one good entry followed by one bad entry. -/
def exC10entries : List (String × AntibodyRecord) :=
  [("CD45", exC10good), ("Mystery", exC10bad)]

/-- The antibody parsed from `exC10good`. -/
def exC10loaded : Antibody :=
  { name := "CD45", short_name := "CD45", fluorochrome := "", target := "",
    clone := "", concentration := 200, recommended_use := 1, type := .SURFACE,
    catalog_number := "", lot_number := "", storage := "", notes := "",
    color := "" }

/-- `acqOrder`-erasing projection of a plan row, used to compare row contents
regardless of the renumbered acquisition order. -/
def dropAcq (r : PlanRow) : PlanRow := { r with acqOrder := 0 }

/-- The surface-partition test of one tube entry (the `elif` branch of the
partition loop). -/
def surfPred (p : String × TubeConfiguration) : Bool :=
  !p.2.needs_fixation && !p.2.antibodies.isEmpty

/-- The intracellular-partition test of one tube entry (the `if` branch of
the partition loop). -/
def intraPred (p : String × TubeConfiguration) : Bool :=
  p.2.needs_fixation

/-! ## Helper lemmas -/

theorem mixStep_fix (acc : List String × List String)
    (p : String × TubeConfiguration) (hf : p.2.needs_fixation = true) :
    mixStep acc p = (acc.1, acc.2 ++ [p.1]) := by
  simp [mixStep, hf]

theorem mixStep_surf (acc : List String × List String)
    (p : String × TubeConfiguration) (hf : p.2.needs_fixation = false)
    (ha : p.2.antibodies.isEmpty = false) :
    mixStep acc p = (acc.1 ++ [p.1], acc.2) := by
  simp [mixStep, hf, ha]

theorem mixStep_skip (acc : List String × List String)
    (p : String × TubeConfiguration) (hf : p.2.needs_fixation = false)
    (ha : p.2.antibodies.isEmpty = true) :
    mixStep acc p = acc := by
  simp [mixStep, hf, ha]

theorem mixPartition_go (tubes : List (String × TubeConfiguration))
    (s i : List String) :
    tubes.foldl mixStep (s, i) =
      (s ++ (tubes.filter surfPred).map Prod.fst,
       i ++ (tubes.filter intraPred).map Prod.fst) := by
  induction tubes generalizing s i with
  | nil => simp
  | cons p rest ih =>
    rw [List.foldl_cons]
    by_cases hf : p.2.needs_fixation
    · rw [mixStep_fix _ _ hf, ih]
      simp [List.filter_cons, surfPred, intraPred, hf]
    · have hf' : p.2.needs_fixation = false := by simpa using hf
      by_cases ha : p.2.antibodies.isEmpty
      · rw [mixStep_skip _ _ hf' ha, ih]
        simp [List.filter_cons, surfPred, intraPred, hf', ha]
      · have ha' : p.2.antibodies.isEmpty = false := by simpa using ha
        rw [mixStep_surf _ _ hf' ha', ih]
        simp [List.filter_cons, surfPred, intraPred, hf', ha']

theorem mixPartition_eq_filters (tubes : List (String × TubeConfiguration)) :
    mixPartition tubes =
      ((tubes.filter surfPred).map Prod.fst,
       (tubes.filter intraPred).map Prod.fst) := by
  rw [mixPartition]
  simpa using mixPartition_go tubes [] []

theorem assocKeys_unique {α : Type} (l : List (String × α))
    (h : (l.map Prod.fst).Nodup) {k : String} {v v' : α}
    (h1 : (k, v) ∈ l) (h2 : (k, v') ∈ l) : v = v' := by
  induction l with
  | nil => cases h1
  | cons a t ih =>
    simp only [List.map_cons, List.nodup_cons, List.mem_map] at h
    rcases List.mem_cons.1 h1 with rfl | h1t
    · rcases List.mem_cons.1 h2 with heq | h2t
      · exact congrArg Prod.snd heq.symm
      · exact absurd ⟨(k, v'), h2t, rfl⟩ h.1
    · rcases List.mem_cons.1 h2 with rfl | h2t
      · exact absurd ⟨(k, v), h1t, rfl⟩ h.1
      · exact ih h.2 h1t h2t

theorem isEmpty_false_iff {α : Type} (l : List α) :
    l.isEmpty = false ↔ l ≠ [] := by
  cases l <;> simp

theorem mem_surfList_iff (tubes : List (String × TubeConfiguration))
    (tn : String) :
    tn ∈ (mixPartition tubes).1 ↔
      ∃ t, (tn, t) ∈ tubes ∧ t.needs_fixation = false ∧ t.antibodies ≠ [] := by
  rw [mixPartition_eq_filters]
  simp only [List.mem_map, List.mem_filter, surfPred, Bool.and_eq_true,
    Bool.not_eq_true', isEmpty_false_iff, Prod.exists]
  constructor
  · rintro ⟨a, b, ⟨hmem, hf, hne⟩, rfl⟩
    exact ⟨b, hmem, hf, hne⟩
  · rintro ⟨t, hmem, hf, hne⟩
    exact ⟨tn, t, ⟨hmem, hf, hne⟩, rfl⟩

theorem mem_intraList_iff (tubes : List (String × TubeConfiguration))
    (tn : String) :
    tn ∈ (mixPartition tubes).2 ↔
      ∃ t, (tn, t) ∈ tubes ∧ t.needs_fixation = true := by
  rw [mixPartition_eq_filters]
  simp only [List.mem_map, List.mem_filter, intraPred, Prod.exists]
  constructor
  · rintro ⟨a, b, ⟨hmem, hf⟩, rfl⟩
    exact ⟨b, hmem, hf⟩
  · rintro ⟨t, hmem, hf⟩
    exact ⟨tn, t, ⟨hmem, hf⟩, rfl⟩

theorem pyDiv_ok {a b v : ℚ} (h : pyDiv a b = .ok v) : b ≠ 0 ∧ v = a / b := by
  by_cases hb : b = 0
  · rw [pyDiv, if_pos hb] at h
    cases h
  · rw [pyDiv, if_neg hb] at h
    cases h
    exact ⟨hb, rfl⟩

theorem doseRows_complete (antibodies : List (String × Antibody))
    (keep : AntibodyType → Bool) (cell_count totalTubes : ℚ) :
    ∀ (abNames : List String) (rows : List DoseRow),
      doseRows antibodies keep abNames cell_count totalTubes = .ok rows →
      ∀ n ∈ abNames, ∀ ab, antibodies.lookup n = some ab →
        keep ab.type = true →
        ∃ row ∈ rows, row.antibody = ab.short_name ∧
          row.conc = ab.concentration ∧
          row.perTubeVol = ab.recommended_use * cell_count / ab.concentration ∧
          row.totalVol = row.perTubeVol * totalTubes := by
  intro abNames
  induction abNames with
  | nil => intro rows _ n hn; cases hn
  | cons m rest ih =>
    intro rows h n hn ab hab hkeep
    rw [doseRows] at h
    rcases hlk : antibodies.lookup m with _ | ab0
    · rw [hlk] at h
      dsimp only at h
      rcases List.mem_cons.1 hn with rfl | hnr
      · rw [hab] at hlk
        cases hlk
      · exact ih rows h n hnr ab hab hkeep
    · rw [hlk] at h
      dsimp only at h
      by_cases hk0 : keep ab0.type
      · rw [if_pos hk0] at h
        rcases hdiv : pyDiv (ab0.recommended_use * cell_count) ab0.concentration
          with e | v
        · rw [hdiv] at h
          dsimp only at h
          cases h
        · rw [hdiv] at h
          dsimp only at h
          rcases hrec : doseRows antibodies keep rest cell_count totalTubes
            with e | rows0
          · rw [hrec] at h
            dsimp only at h
            cases h
          · rw [hrec] at h
            dsimp only at h
            cases h
            rcases List.mem_cons.1 hn with rfl | hnr
            · rw [hab] at hlk
              cases hlk
              obtain ⟨hb, hv⟩ := pyDiv_ok hdiv
              exact ⟨_, List.mem_cons_self _ _, rfl, rfl, hv, rfl⟩
            · obtain ⟨row, hrow, hprops⟩ := ih rows0 hrec n hnr ab hab hkeep
              exact ⟨row, List.mem_cons_of_mem _ hrow, hprops⟩
      · rw [if_neg hk0] at h
        rcases List.mem_cons.1 hn with rfl | hnr
        · rw [hab] at hlk
          cases hlk
          exact absurd hkeep (by simpa using hk0)
        · exact ih rows h n hnr ab hab hkeep

theorem groupResults_complete (antibodies : List (String × Antibody))
    (tubes : List (String × TubeConfiguration)) (keep : AntibodyType → Bool)
    (cell_count totalTubes : ℚ) :
    ∀ (tubeNames : List String) (rows : List DoseRow),
      groupResults antibodies tubes keep tubeNames cell_count totalTubes =
        .ok rows →
      ∀ tn ∈ tubeNames, ∀ tube, tubes.lookup tn = some tube →
        ∀ n ∈ tube.antibodies, ∀ ab, antibodies.lookup n = some ab →
          keep ab.type = true →
          ∃ row ∈ rows, row.antibody = ab.short_name ∧
            row.conc = ab.concentration ∧
            row.perTubeVol =
              ab.recommended_use * cell_count / ab.concentration ∧
            row.totalVol = row.perTubeVol * totalTubes := by
  intro tubeNames
  induction tubeNames with
  | nil => intro rows _ tn htn; cases htn
  | cons m rest ih =>
    intro rows h tn htn tube htube n hn ab hab hkeep
    rw [groupResults] at h
    rcases hlk : tubes.lookup m with _ | tube0
    · rw [hlk] at h
      dsimp only at h
      rcases List.mem_cons.1 htn with rfl | htnr
      · rw [htube] at hlk
        cases hlk
      · exact ih rows h tn htnr tube htube n hn ab hab hkeep
    · rw [hlk] at h
      dsimp only at h
      rcases hd : doseRows antibodies keep tube0.antibodies cell_count totalTubes
        with e | rows1
      · rw [hd] at h
        dsimp only at h
        cases h
      · rw [hd] at h
        dsimp only at h
        rcases hrec : groupResults antibodies tubes keep rest cell_count totalTubes
          with e | rows2
        · rw [hrec] at h
          dsimp only at h
          cases h
        · rw [hrec] at h
          dsimp only at h
          cases h
          rcases List.mem_cons.1 htn with rfl | htnr
          · rw [htube] at hlk
            cases hlk
            obtain ⟨row, hrow, hprops⟩ :=
              doseRows_complete antibodies keep cell_count totalTubes
                tube.antibodies rows1 hd n hn ab hab hkeep
            exact ⟨row, List.mem_append_left _ hrow, hprops⟩
          · obtain ⟨row, hrow, hprops⟩ :=
              ih rows2 hrec tn htnr tube htube n hn ab hab hkeep
            exact ⟨row, List.mem_append_right _ hrow, hprops⟩

theorem find?_filter_of_imp {α : Type} (l : List α) (p q : α → Bool)
    (h : ∀ x, p x = true → q x = true) :
    (l.filter q).find? p = l.find? p := by
  induction l with
  | nil => rfl
  | cons x t ih =>
    by_cases hq : q x
    · rw [List.filter_cons_of_pos hq]
      by_cases hp : p x
      · rw [List.find?_cons_of_pos _ hp, List.find?_cons_of_pos _ hp]
      · rw [List.find?_cons_of_neg _ (by simpa using hp),
          List.find?_cons_of_neg _ (by simpa using hp), ih]
    · have hp : p x = false := by
        cases hpx : p x
        · rfl
        · exact absurd (h x hpx) (by simpa using hq)
      rw [List.filter_cons_of_neg (by simpa using hq),
        List.find?_cons_of_neg _ (by simp [hp]), ih]

theorem dedupByAntibody_sublist (rows : List DoseRow) :
    (dedupByAntibody rows).Sublist rows := by
  induction rows using dedupByAntibody.induct with
  | case1 => simp [dedupByAntibody]
  | case2 r rest ih =>
    rw [dedupByAntibody]
    exact List.Sublist.cons₂ r (ih.trans (List.filter_sublist rest))

theorem dedupByAntibody_mem_iff (rows : List DoseRow) :
    ∀ r : DoseRow, r ∈ dedupByAntibody rows ↔
      rows.find? (fun r0 => r0.antibody == r.antibody) = some r := by
  induction rows using dedupByAntibody.induct with
  | case1 => intro r; simp [dedupByAntibody]
  | case2 a rest ih =>
    intro r
    rw [dedupByAntibody]
    by_cases hk : a.antibody = r.antibody
    · constructor
      · intro hmem
        rcases List.mem_cons.1 hmem with rfl | hmem'
        · rw [List.find?_cons_of_pos _ (by simp)]
        · exfalso
          have hf := (ih r).1 hmem'
          have hrmem := List.mem_of_find?_eq_some hf
          have hne : r.antibody ≠ a.antibody := by
            simpa using (List.mem_filter.1 hrmem).2
          exact hne hk.symm
      · intro hf
        rw [List.find?_cons_of_pos _ (by simp [hk])] at hf
        cases hf
        exact List.mem_cons_self _ _
    · have hfilter :
          ((rest.filter (fun r0 => r0.antibody ≠ a.antibody)).find?
              (fun r0 => r0.antibody == r.antibody)) =
            rest.find? (fun r0 => r0.antibody == r.antibody) :=
        find?_filter_of_imp rest _ _ (fun x hx => by
          have hxr : x.antibody = r.antibody := by simpa using hx
          have hxa : x.antibody ≠ a.antibody := by
            intro hxa
            rw [hxa] at hxr
            exact hk hxr
          simpa using hxa)
      constructor
      · intro hmem
        rcases List.mem_cons.1 hmem with rfl | hmem'
        · exact absurd rfl hk
        · have hf := (ih r).1 hmem'
          rw [List.find?_cons_of_neg _ (by simpa using hk), ← hfilter]
          exact hf
      · intro hf
        rw [List.find?_cons_of_neg _ (by simpa using hk)] at hf
        refine List.mem_cons_of_mem _ ((ih r).2 ?_)
        rw [hfilter]
        exact hf

theorem dedupByAntibody_keys_nodup (rows : List DoseRow) :
    ((dedupByAntibody rows).map (fun r => r.antibody)).Nodup := by
  induction rows using dedupByAntibody.induct with
  | case1 => simp [dedupByAntibody]
  | case2 a rest ih =>
    rw [dedupByAntibody]
    simp only [List.map_cons, List.nodup_cons]
    refine ⟨?_, ih⟩
    intro hmem
    obtain ⟨r, hr, hkey⟩ := List.mem_map.1 hmem
    have hrf : r ∈ rest.filter (fun r0 => r0.antibody ≠ a.antibody) :=
      (dedupByAntibody_sublist _).subset hr
    have : r.antibody ≠ a.antibody := by
      simpa using (List.mem_filter.1 hrf).2
    exact this hkey

theorem planRowsAux_length (l : List (String × ℕ × String × TubeConfiguration))
    (sid : ℕ) : (planRowsAux sid l).length = l.length := by
  induction l generalizing sid with
  | nil => rfl
  | cons q rest ih => simp [planRowsAux, ih]

theorem planRowsAux_acq (l : List (String × ℕ × String × TubeConfiguration))
    (sid : ℕ) :
    (planRowsAux sid l).map (fun r => r.acqOrder) = List.range' sid l.length := by
  induction l generalizing sid with
  | nil => rfl
  | cons q rest ih =>
    show PlanRow.acqOrder (mkPlanRow q.1 q.2.1 q.2.2.1 q.2.2.2 sid) ::
      (planRowsAux (sid + 1) rest).map (fun r => r.acqOrder) = _
    rw [ih]
    rfl

theorem planRowsAux_proj (l : List (String × ℕ × String × TubeConfiguration))
    (sid : ℕ) :
    (planRowsAux sid l).map (fun r => (r.group, r.rep, r.tubeName)) =
      l.map (fun q => (q.1, q.2.1, q.2.2.1)) := by
  induction l generalizing sid with
  | nil => rfl
  | cons q rest ih =>
    show (q.1, q.2.1, q.2.2.1) ::
      (planRowsAux (sid + 1) rest).map (fun r => (r.group, r.rep, r.tubeName)) = _
    rw [ih]
    rfl

theorem repTriples_length (g : String)
    (tubes : List (String × TubeConfiguration)) (rs : List ℕ) :
    (repTriples g tubes rs).length = rs.length * tubes.length := by
  induction rs with
  | nil => simp [repTriples]
  | cons r rest ih =>
    simp [repTriples, tubeTriples, ih, Nat.succ_mul, Nat.add_comm]

theorem groupTriples_length (tubes : List (String × TubeConfiguration))
    (replicates : ℕ) (gs : List String) :
    (groupTriples tubes replicates gs).length =
      gs.length * (replicates * tubes.length) := by
  induction gs with
  | nil => simp [groupTriples]
  | cons g rest ih =>
    simp [groupTriples, ih, repTriples_length, Nat.succ_mul, Nat.add_comm]

theorem repTriples_proj (g : String)
    (tubes : List (String × TubeConfiguration)) (rs : List ℕ) :
    (repTriples g tubes rs).map (fun q => (q.1, q.2.1, q.2.2.1)) =
      rs.flatMap (fun rep => tubes.map (fun p => (g, rep, p.1))) := by
  induction rs with
  | nil => rfl
  | cons r rest ih =>
    rw [repTriples, List.map_append, ih, List.flatMap_cons]
    simp [tubeTriples, Function.comp]

theorem groupTriples_proj (tubes : List (String × TubeConfiguration))
    (replicates : ℕ) (gs : List String) :
    (groupTriples tubes replicates gs).map (fun q => (q.1, q.2.1, q.2.2.1)) =
      gs.flatMap (fun g => (List.range' 1 replicates).flatMap
        (fun rep => tubes.map (fun p => (g, rep, p.1)))) := by
  induction gs with
  | nil => rfl
  | cons g rest ih =>
    rw [groupTriples, List.map_append, ih, List.flatMap_cons, repTriples_proj]

theorem shuffleGo_length {α : Type} (n : ℕ) :
    ∀ (s : ℕ) (l : List α), (shuffleGo n s l).length = min n l.length := by
  induction n with
  | zero => intro s l; simp [shuffleGo]
  | succ n ih =>
    intro s l
    match l with
    | [] => simp [shuffleGo]
    | a :: t =>
      have hlen : 0 < (a :: t).length := by simp
      have hi : s % (a :: t).length < (a :: t).length := Nat.mod_lt _ hlen
      have hsome : (a :: t)[s % (a :: t).length]? =
          some ((a :: t)[s % (a :: t).length]) := List.getElem?_eq_getElem hi
      rw [shuffleGo, hsome]
      have herase : ((a :: t).eraseIdx (s % (a :: t).length)).length =
          (a :: t).length - 1 := List.length_eraseIdx_of_lt hi
      simp only [List.length_cons, ih, herase]
      simp only [List.length_cons] at herase ⊢
      omega
      simp

theorem perm_cons_eraseIdx {α : Type} :
    ∀ (l : List α) (i : ℕ) (a : α), l[i]? = some a →
      l.Perm (a :: l.eraseIdx i) := by
  intro l
  induction l with
  | nil => intro i a h; simp at h
  | cons b t ih =>
    intro i a h
    match i with
    | 0 =>
      simp only [List.getElem?_cons_zero, Option.some.injEq] at h
      rw [h, List.eraseIdx_cons_zero]
    | i + 1 =>
      simp only [List.getElem?_cons_succ] at h
      rw [List.eraseIdx_cons_succ]
      exact ((ih i a h).cons b).trans (List.Perm.swap a b _)

theorem shuffleGo_perm {α : Type} (n : ℕ) :
    ∀ (s : ℕ) (l : List α), l.length ≤ n → (shuffleGo n s l).Perm l := by
  induction n with
  | zero =>
    intro s l h
    have : l = [] := List.eq_nil_of_length_eq_zero (Nat.le_zero.1 h)
    simp [this, shuffleGo]
  | succ n ih =>
    intro s l h
    match l with
    | [] => simp [shuffleGo]
    | a :: t =>
      have hlen : 0 < (a :: t).length := by simp
      have hi : s % (a :: t).length < (a :: t).length := Nat.mod_lt _ hlen
      have hsome : (a :: t)[s % (a :: t).length]? =
          some ((a :: t)[s % (a :: t).length]) := List.getElem?_eq_getElem hi
      rw [shuffleGo, hsome]
      have herase : ((a :: t).eraseIdx (s % (a :: t).length)).length ≤ n := by
        rw [List.length_eraseIdx_of_lt hi]
        simp only [List.length_cons] at h ⊢
        omega
      have hperm := ih (lcgNext s) _ herase
      exact (hperm.cons _).trans (perm_cons_eraseIdx _ _ _ hsome).symm
      simp

theorem seededShuffle_length {α : Type} (seed : ℕ) (l : List α) :
    (seededShuffle seed l).length = l.length := by
  rw [seededShuffle, shuffleGo_length]
  exact Nat.min_self _

theorem seededShuffle_perm {α : Type} (seed : ℕ) (l : List α) :
    (seededShuffle seed l).Perm l :=
  shuffleGo_perm _ _ _ (Nat.le_refl _)

theorem renumber_acq (rows : List PlanRow) :
    (renumber rows).map (fun r => r.acqOrder) =
      List.range' 1 rows.length := by
  rw [renumber, List.map_map]
  have : ((fun r => r.acqOrder) ∘ fun p : ℕ × PlanRow =>
      { p.2 with acqOrder := p.1 }) = Prod.fst := rfl
  rw [this, List.enumFrom_map_fst]

theorem renumber_dropAcq_go :
    ∀ (rows : List PlanRow) (n : ℕ),
      ((List.enumFrom n rows).map (fun p => { p.2 with acqOrder := p.1 })).map
          dropAcq =
        rows.map dropAcq := by
  intro rows
  induction rows with
  | nil => intro n; rfl
  | cons a t ih =>
    intro n
    show dropAcq { a with acqOrder := n } ::
      ((List.enumFrom (n + 1) t).map
        (fun p => { p.2 with acqOrder := p.1 })).map dropAcq = _
    rw [ih]
    rfl

theorem renumber_dropAcq (rows : List PlanRow) :
    (renumber rows).map dropAcq = rows.map dropAcq :=
  renumber_dropAcq_go rows 1

/-! ## Claims -/

/-- Claim C2: the master-mix computation partitions tubes by a single
per-tube rule, in priority order: `needsFixation = true` puts the tube in
the intracellular group; otherwise a non-empty reference list puts it in the
surface group; otherwise it is in neither.  Every tube is in at most one
group, regardless of the types of the reagents it holds (the rule never
inspects them). -/
theorem C2_partition_rule (tubes : List (String × TubeConfiguration))
    (hnd : (tubes.map Prod.fst).Nodup) :
    (∀ tn t, (tn, t) ∈ tubes →
      (t.needs_fixation = true →
        tn ∈ (mixPartition tubes).2 ∧ tn ∉ (mixPartition tubes).1) ∧
      (t.needs_fixation = false → t.antibodies ≠ [] →
        tn ∈ (mixPartition tubes).1 ∧ tn ∉ (mixPartition tubes).2) ∧
      (t.needs_fixation = false → t.antibodies = [] →
        tn ∉ (mixPartition tubes).1 ∧ tn ∉ (mixPartition tubes).2)) ∧
    (∀ tn, tn ∈ (mixPartition tubes).1 → tn ∉ (mixPartition tubes).2) := by
  constructor
  · intro tn t hmem
    refine ⟨?_, ?_, ?_⟩
    · intro hf
      refine ⟨(mem_intraList_iff tubes tn).2 ⟨t, hmem, hf⟩, ?_⟩
      intro hs
      obtain ⟨t', hmem', hf', _⟩ := (mem_surfList_iff tubes tn).1 hs
      rw [assocKeys_unique tubes hnd hmem' hmem] at hf'
      rw [hf] at hf'
      cases hf'
    · intro hf hne
      refine ⟨(mem_surfList_iff tubes tn).2 ⟨t, hmem, hf, hne⟩, ?_⟩
      intro hi
      obtain ⟨t', hmem', hf'⟩ := (mem_intraList_iff tubes tn).1 hi
      rw [assocKeys_unique tubes hnd hmem' hmem] at hf'
      rw [hf] at hf'
      cases hf'
    · intro hf hempty
      constructor
      · intro hs
        obtain ⟨t', hmem', _, hne'⟩ := (mem_surfList_iff tubes tn).1 hs
        rw [assocKeys_unique tubes hnd hmem' hmem] at hne'
        exact hne' hempty
      · intro hi
        obtain ⟨t', hmem', hf'⟩ := (mem_intraList_iff tubes tn).1 hi
        rw [assocKeys_unique tubes hnd hmem' hmem] at hf'
        rw [hf] at hf'
        cases hf'
  · intro tn hs hi
    obtain ⟨t, hmem, hf, _⟩ := (mem_surfList_iff tubes tn).1 hs
    obtain ⟨t', hmem', hf'⟩ := (mem_intraList_iff tubes tn).1 hi
    rw [assocKeys_unique tubes hnd hmem' hmem] at hf'
    rw [hf] at hf'
    cases hf'

/-- Claim C3: for non-empty catalog and tube set (the guard under which the
source builds the matrix), `buildMatrix` yields exactly one row per tube in
tube insertion order; each row has exactly one presence cell per catalog
reagent in catalog insertion order; the cell for `(tube, reagent)` is `"✓"`
iff the reagent name is a member of the tube's reference list — independent
of the reagent record itself; dangling references add no column and cause no
error (`buildMatrix` is total and the columns are exactly the catalog
entries). -/
theorem C3_matrix_shape (antibodies : List (String × Antibody))
    (tubes : List (String × TubeConfiguration))
    (_hab : antibodies ≠ []) (_htu : tubes ≠ []) :
    (buildMatrix antibodies tubes).length = tubes.length ∧
    ∀ (i : ℕ) (tn : String) (tube : TubeConfiguration),
      tubes[i]? = some (tn, tube) →
      ∃ row : MatrixRow, (buildMatrix antibodies tubes)[i]? = some row ∧
        row.tubeName = tn ∧
        row.presence.length = antibodies.length ∧
        ∀ (j : ℕ) (an : String) (ab : Antibody),
          antibodies[j]? = some (an, ab) →
          row.presence[j]? =
            some (an, if an ∈ tube.antibodies then "✓" else "") ∧
          (row.presence[j]? = some (an, "✓") ↔ an ∈ tube.antibodies) := by
  constructor
  · simp [buildMatrix]
  · intro i tn tube hi
    refine ⟨_, by rw [buildMatrix, List.getElem?_map, hi]; rfl, rfl, ?_, ?_⟩
    · simp [buildMatrix]
    · intro j an ab hj
      have hcell :
          (antibodies.map (fun q =>
            (q.1, if q.1 ∈ tube.antibodies then "✓" else "")))[j]? =
            some (an, if an ∈ tube.antibodies then "✓" else "") := by
        rw [List.getElem?_map, hj]
        rfl
      refine ⟨hcell, ?_⟩
      rw [hcell]
      by_cases hmem : an ∈ tube.antibodies
      · simp [hmem]
      · simp [hmem]

/-- Witness for C3 at the concrete one-antibody catalog and three-tube set:
the guards hold, the shape matches, and the `(T1, CD45)` cell is present
while the `(T3, CD45)` cell is absent. -/
theorem C3_matrix_shape_witness :
    exCatalog ≠ [] ∧ exTubes ≠ [] ∧
    (buildMatrix exCatalog exTubes).length = exTubes.length ∧
    ∃ row, (buildMatrix exCatalog exTubes)[0]? = some row ∧
      row.presence[0]? = some ("CD45", "✓") := by
  have h := C3_matrix_shape exCatalog exTubes (by decide) (by decide)
  obtain ⟨row, hrow, _, _, hcells⟩ :=
    h.2 0 "T1" exSurfTube (by rfl)
  refine ⟨by decide, by decide, h.1, row, hrow, ?_⟩
  have := (hcells 0 "CD45" exCD45 (by rfl)).1
  simpa [exSurfTube] using this

/-- Claim C1: for every surface-group tube and every reagent reference of it
that resolves in the catalog to a reagent of surface-mix type (Surface,
Viability or FcBlock), the emitted dose row computes
`perTubeDose = recommendedUse * cellCount / concentration` and
`totalDose = perTubeDose * totalTubes`, with
`totalTubes = count(surfaceGroup) + extraTubes` and
`totalVolume = perTubeVolume * totalTubes`.  The instance with
`cellCount = 1`, `recommendedUse = 0.25`, `concentration = 200`,
`extraTubes = 2` and one surface tube (`perTubeDose = 0.00125`,
`totalTubes = 3`, `totalDose = 0.00375`) is checked in the witness. -/
theorem C1_surface_doses (antibodies : List (String × Antibody))
    (tubes : List (String × TubeConfiguration)) (cell_count per_tube : ℚ)
    (extra_tubes : ℕ) (rows : List DoseRow)
    (h : surfaceResults antibodies tubes cell_count extra_tubes = .ok rows) :
    totalSurfaceTubes tubes extra_tubes =
      (mixPartition tubes).1.length + extra_tubes ∧
    totalSurfaceVolume tubes per_tube extra_tubes =
      per_tube * (totalSurfaceTubes tubes extra_tubes : ℚ) ∧
    ∀ tn ∈ (mixPartition tubes).1, ∀ tube, tubes.lookup tn = some tube →
      ∀ n ∈ tube.antibodies, ∀ ab, antibodies.lookup n = some ab →
        surfaceKeep ab.type = true →
        ∃ row ∈ rows, row.antibody = ab.short_name ∧
          row.conc = ab.concentration ∧
          row.perTubeVol =
            ab.recommended_use * cell_count / ab.concentration ∧
          row.totalVol =
            row.perTubeVol * (totalSurfaceTubes tubes extra_tubes : ℚ) := by
  refine ⟨rfl, rfl, ?_⟩
  intro tn htn tube htube n hn ab hab hkeep
  exact groupResults_complete antibodies tubes surfaceKeep cell_count
    (totalSurfaceTubes tubes extra_tubes : ℚ) (mixPartition tubes).1 rows h
    tn htn tube htube n hn ab hab hkeep

/-- Witness for C1: the spec's numeric contract.  With `cellCount = 1`,
`recommendedUse = 0.25`, `concentration = 200`, one surface tube and
`extraTubes = 2`: `totalTubes = 3`, `perTubeDose = 0.00125 = 1/800`,
`totalDose = 0.00375 = 3/800`. -/
theorem C1_surface_doses_witness :
    surfaceResults exCatalog [("T1", exSurfTube)] 1 2 = .ok exC1rows ∧
    totalSurfaceTubes [("T1", exSurfTube)] 2 = 3 ∧
    ∃ row ∈ exC1rows, row.antibody = "CD45" ∧
      row.perTubeVol = 1/800 ∧ row.totalVol = 3/800 := by
  have h : surfaceResults exCatalog [("T1", exSurfTube)] 1 2 = .ok exC1rows := by
    norm_num [surfaceResults, groupResults, doseRows, pyDiv, mixPartition,
      mixStep, totalSurfaceTubes, List.lookup, surfaceKeep, exCatalog, exCD45,
      exSurfTube, exC1rows, List.foldl]
  have htt : totalSurfaceTubes [("T1", exSurfTube)] 2 = 3 := by decide
  refine ⟨h, htt, ?_⟩
  obtain ⟨row, hrow, hname, hconc, hper, htot⟩ :=
    (C1_surface_doses exCatalog [("T1", exSurfTube)] 1 100 2 exC1rows h).2.2
      "T1" (by decide) exSurfTube rfl "CD45" (by decide) exCD45 rfl (by decide)
  refine ⟨row, hrow, by simpa [exCD45] using hname, ?_, ?_⟩
  · rw [hper]
    norm_num [exCD45]
  · rw [htot, hper, htt]
    norm_num [exCD45]

/-- Claim C4 (amended): each master-mix result block deduplicates the
emitted (tube, reagent) rows on the reagent's *short name* (the `抗体`
column), not its full catalog name, keeping the first occurrence in
iteration order: the displayed table is the unique subsequence of the
emitted rows that keeps exactly the first row carrying each short-name
value.  A reagent referenced by several tubes therefore appears once, with
the dose from the first tube encountered; distinct reagents sharing a short
name are collapsed into the first one's row. -/
theorem C4_dedup_first_occurrence (antibodies : List (String × Antibody))
    (tubes : List (String × TubeConfiguration)) (cell_count : ℚ)
    (extra_tubes : ℕ) (rows : List DoseRow)
    (h : surfaceResults antibodies tubes cell_count extra_tubes = .ok rows) :
    surfaceTable antibodies tubes cell_count extra_tubes =
      .ok (dedupByAntibody rows) ∧
    (dedupByAntibody rows).Sublist rows ∧
    ((dedupByAntibody rows).map (fun r => r.antibody)).Nodup ∧
    ∀ r : DoseRow, r ∈ dedupByAntibody rows ↔
      rows.find? (fun r0 => r0.antibody == r.antibody) = some r := by
  refine ⟨?_, dedupByAntibody_sublist rows, dedupByAntibody_keys_nodup rows,
    dedupByAntibody_mem_iff rows⟩
  rw [surfaceTable, h]
  rfl

/-- Witness for C4: at the two-reagent input the table is the deduplicated
row list, a subsequence of the emitted rows with no repeated `抗体` value. -/
theorem C4_dedup_first_occurrence_witness :
    surfaceResults exC4abs exC4tubes 1 0 = .ok exC4rows ∧
    surfaceTable exC4abs exC4tubes 1 0 = .ok (dedupByAntibody exC4rows) ∧
    ((dedupByAntibody exC4rows).map (fun r => r.antibody)).Nodup := by
  have h : surfaceResults exC4abs exC4tubes 1 0 = .ok exC4rows := by
    norm_num [surfaceResults, groupResults, doseRows, pyDiv, mixPartition,
      mixStep, totalSurfaceTubes, List.lookup, surfaceKeep, exC4abs, exAlpha,
      exBeta, exC4tube, exC4tubes, exC4rows, List.foldl,
      show (("Reagent B" : String) == "Reagent A") = false from rfl]
  have hthm := C4_dedup_first_occurrence exC4abs exC4tubes 1 0 exC4rows h
  exact ⟨h, hthm.1, hthm.2.2.1⟩

/-- Counterexample for C4 as stated: deduplication is keyed on the short
name, not the reagent name.  Two reagents with *distinct* catalog names but
one shared short name `"X"`, both referenced once by the single surface
tube, emit two rows; deduplication "by reagent name, keeping the first
occurrence" would keep both, but the computed table keeps only the first —
the second reagent (concentration 200) appears in no row at all. -/
theorem C4_name_dedup_counterexample :
    (exC4abs.map Prod.fst).Nodup ∧
    surfaceResults exC4abs exC4tubes 1 0 = .ok exC4rows ∧
    exC4rows.map (fun r => r.conc) = [100, 200] ∧
    (dedupByAntibody exC4rows).map (fun r => r.conc) = [100] := by
  refine ⟨by decide, ?_, by norm_num [exC4rows], ?_⟩
  · norm_num [surfaceResults, groupResults, doseRows, pyDiv, mixPartition,
      mixStep, totalSurfaceTubes, List.lookup, surfaceKeep, exC4abs, exAlpha,
      exBeta, exC4tube, exC4tubes, exC4rows, List.foldl,
      show (("Reagent B" : String) == "Reagent A") = false from rfl]
  · rw [show dedupByAntibody exC4rows =
        [{ antibody := "X", conc := 100, perTubeVol := 1/100,
           totalVol := 1/100, notes := "" }] from by
      simp [dedupByAntibody, exC4rows]]
    norm_num

/-- Claim C5 (code bug evidence): a reagent with `concentration = 0`
referenced from a tube of the surface group makes the whole master-mix dose
computation raise `ZeroDivisionError`: the per-reagent division is not
guarded, the error propagates, and no dose table at all is produced — the
well-formed reagent in the same tube loses its row too. -/
theorem C5_zero_concentration_raises :
    exC5abs.lookup "ZeroAb" = some exZeroAb ∧
    exZeroAb.concentration = 0 ∧
    "T1" ∈ (mixPartition exC5tubes).1 ∧
    pyDiv (exZeroAb.recommended_use * 1) exZeroAb.concentration = .error () ∧
    surfaceResults exC5abs exC5tubes 1 2 = .error () := by
  refine ⟨rfl, rfl, by decide, rfl, ?_⟩
  norm_num [surfaceResults, groupResults, doseRows, pyDiv, mixPartition,
    mixStep, totalSurfaceTubes, List.lookup, surfaceKeep, exC5abs, exCD45,
    exZeroAb, exC5tube, exC5tubes, List.foldl,
    show (("ZeroAb" : String) == "CD45") = false from rfl]

/-- Claim C6: with `randomize = False` the plan has exactly
`len(groups) * replicates * len(tubes)` rows, one per
`(group, replicate 1..replicates, tube)` triple in nested iteration order,
and the acquisition-order column is the sequence `1..N` in that order. -/
theorem C6_plan_shape (tubes : List (String × TubeConfiguration))
    (groups : List String) (replicates : ℕ) (_h : 1 ≤ replicates) :
    (generatePlan tubes groups replicates).length =
      groups.length * replicates * tubes.length ∧
    (generatePlan tubes groups replicates).map (fun r => r.acqOrder) =
      List.range' 1 (groups.length * replicates * tubes.length) ∧
    (generatePlan tubes groups replicates).map
        (fun r => (r.group, r.rep, r.tubeName)) =
      groups.flatMap (fun g => (List.range' 1 replicates).flatMap
        (fun rep => tubes.map (fun p => (g, rep, p.1)))) := by
  refine ⟨?_, ?_, ?_⟩
  · rw [generatePlan, planRowsAux_length, planTriples, groupTriples_length,
      Nat.mul_assoc]
  · rw [generatePlan, planRowsAux_acq, planTriples, groupTriples_length,
      Nat.mul_assoc]
  · rw [generatePlan, planRowsAux_proj, planTriples, groupTriples_proj]

/-- Witness for C6: the spec's example — two groups, two replicates, three
tubes — yields exactly 12 rows with acquisition order `1..12`. -/
theorem C6_plan_shape_witness :
    (generatePlan exTubes ["A", "B"] 2).length = 12 ∧
    (generatePlan exTubes ["A", "B"] 2).map (fun r => r.acqOrder) =
      List.range' 1 12 := by
  have h := C6_plan_shape exTubes ["A", "B"] 2 (by decide)
  exact ⟨h.1.trans (by decide), h.2.1.trans (by decide)⟩

/-- Claim C7: with `randomize = True` the plan is a deterministic function
of the input alone — `np.random.seed(42)` overwrites the ambient PRNG state,
so two invocations from *any* two PRNG states produce the identical row
order; after the shuffle the acquisition-order column is renumbered `1..N`
in shuffled order, and the shuffled rows are a permutation of the
deterministic plan's rows (up to the renumbered acquisition order). -/
theorem C7_randomized_determinism (tubes : List (String × TubeConfiguration))
    (groups : List String) (replicates : ℕ) :
    (∀ s1 s2 : RandState,
      generatePlanRandom s1 tubes groups replicates =
        generatePlanRandom s2 tubes groups replicates) ∧
    (∀ s : RandState,
      (generatePlanRandom s tubes groups replicates).map
          (fun r => r.acqOrder) =
        List.range' 1 (generatePlan tubes groups replicates).length) ∧
    (∀ s : RandState,
      ((generatePlanRandom s tubes groups replicates).map dropAcq).Perm
        ((generatePlan tubes groups replicates).map dropAcq)) := by
  refine ⟨fun s1 s2 => rfl, fun s => ?_, fun s => ?_⟩
  · rw [generatePlanRandom, renumber_acq, seededShuffle_length]
  · rw [generatePlanRandom, renumber_dropAcq]
    exact (seededShuffle_perm _ _).map dropAcq

/-- Claim C8 (code bug evidence): the save/load round trip fails for every
non-empty catalog.  The saver serializes a reagent's `type` through Python
`str()` (`"AntibodyType.SURFACE"`, …) because the enum is not JSON
serializable and `json.dumps` is called with `default=str`, while the loader
looks the stored label up in `{t.value: t}`, which is keyed by the enum
*values* (`"表面抗体"`, …).  Every saved label misses the table, so loading a
saved project raises `KeyError` instead of reproducing the catalog. -/
theorem C8_roundtrip_fails :
    (∀ t : AntibodyType,
      typeMap.lookup t.value = some t ∧ typeMap.lookup t.pyStr = none) ∧
    (∀ ab : Antibody,
      loadAntibody (saveAntibody ab) = .error ab.type.pyStr) ∧
    loadProjectAntibodies (saveProjectAntibodies exCatalog) =
      .error "AntibodyType.SURFACE" := by
  refine ⟨?_, ?_, rfl⟩
  · intro t
    cases t <;> exact ⟨rfl, rfl⟩
  · intro ab
    obtain ⟨n, sn, fl, tg, cl, cn, ru, ty, cat, lot, sto, no, co⟩ := ab
    cases ty <;> rfl

/-- Counterexample for C9 as stated: for a spaced name without `"Anti-"`,
the derived short name is the concatenation of the initials of the
capitalized words, not the last whitespace-delimited token: `"Big Cat"`
gives `"BC"`, not `"Cat"`. -/
theorem C9_lastToken_counterexample :
    postInitShortName "Big Cat" "" = some "BC" ∧
    lastWsToken "Big Cat" = "Cat" ∧
    postInitShortName "Big Cat" "" ≠ some (lastWsToken "Big Cat") := by
  refine ⟨by decide, by decide, by decide⟩

/-- Claim C9 (amended): an empty `shortName` is auto-derived from `name` in
three branches, in order: if `name` contains `"Anti-"`, the first
whitespace token of the text after the last `"Anti-"` (absent if nothing
follows); else, if `name` contains a space, the concatenation of the first
characters of the whitespace-delimited words that start with an uppercase
letter; else the first ten characters of `name` (the fixed-length-prefix
branch of the original claim). -/
theorem C9_shortName_amended (name : String) :
    (2 ≤ (pySplitOn name "Anti-").length →
      postInitShortName name "" =
        (pySplitWs ((pySplitOn name "Anti-").getLastD "")).head?) ∧
    ((pySplitOn name "Anti-").length < 2 → name.data.contains ' ' = true →
      postInitShortName name "" =
        some (String.mk (((pySplitWs name).filter
          (fun w => (pyFront w).isUpper)).map pyFront))) ∧
    ((pySplitOn name "Anti-").length < 2 → name.data.contains ' ' = false →
      postInitShortName name "" = some (pyTake name 10)) := by
  refine ⟨?_, ?_, ?_⟩
  · intro hanti
    rw [postInitShortName, if_neg (by simp), if_pos hanti]
    cases pySplitWs ((pySplitOn name "Anti-").getLastD "") <;> rfl
  · intro hanti hsp
    rw [postInitShortName, if_neg (by simp),
      if_neg (by omega), if_pos hsp]
  · intro hanti hsp
    rw [postInitShortName, if_neg (by simp),
      if_neg (by omega), if_neg (by rw [hsp]; simp)]

/-- Witness for C9: one concrete input per branch — an `"Anti-"` name, a
spaced name, and a space-free name. -/
theorem C9_shortName_amended_witness :
    postInitShortName "X Anti-Y Z" "" = some "Y" ∧
    postInitShortName "Big Cat" "" = some "BC" ∧
    postInitShortName "NoSpaces" "" = some "NoSpaces" := by
  refine ⟨?_, ?_, ?_⟩
  · rw [(C9_shortName_amended "X Anti-Y Z").1 (by decide)]
    decide
  · rw [(C9_shortName_amended "Big Cat").2.1 (by decide) (by decide)]
    decide
  · rw [(C9_shortName_amended "NoSpaces").2.2 (by decide) (by decide)]
    decide

/-- Claim C10: project load is not atomic.  The session catalog is cleared
before the uploaded entries are parsed, so the result never depends on the
pre-load catalog; when parsing raises partway (an unrecognized type label),
the session is left with the partially rebuilt catalog — here one loaded
entry — rather than the pre-load state. -/
theorem C10_load_not_atomic :
    (∀ (pre pre' : List (String × Antibody))
        (entries : List (String × AntibodyRecord)),
      loadProjectAntibodiesState pre entries =
        loadProjectAntibodiesState pre' entries) ∧
    loadProjectAntibodiesState exC10pre exC10entries =
      ([("CD45", exC10loaded)], some "外星抗体") ∧
    ([("CD45", exC10loaded)] : List (String × Antibody)) ≠ exC10pre ∧
    exC10pre ≠ [] := by
  exact ⟨fun pre pre' entries => rfl, rfl, by decide, by decide⟩

/-- Witness for C2 at the concrete three-tube set: the fixation tube lands
in the intracellular group only, the referencing non-fixation tube in the
surface group only, and the blank tube in neither. -/
theorem C2_partition_rule_witness :
    (exTubes.map Prod.fst).Nodup ∧
    ("T2" ∈ (mixPartition exTubes).2 ∧ "T2" ∉ (mixPartition exTubes).1) ∧
    ("T1" ∈ (mixPartition exTubes).1 ∧ "T1" ∉ (mixPartition exTubes).2) ∧
    ("T3" ∉ (mixPartition exTubes).1 ∧ "T3" ∉ (mixPartition exTubes).2) := by
  have hnd : (exTubes.map Prod.fst).Nodup := by decide
  have h := (C2_partition_rule exTubes hnd).1
  refine ⟨hnd, ?_, ?_, ?_⟩
  · exact (h "T2" exFixTube (by decide)).1 rfl
  · exact (h "T1" exSurfTube (by decide)).2.1 rfl (by decide)
  · exact (h "T3" exBlankTube (by decide)).2.2 rfl rfl

end FlowDesigner
